import Mathlib

/-!
Verification of `src/main.py` (City of Pittsburgh mail-ballot pipeline).

The file embeds the program shallowly:

* `fetch_data_from_api` (main.py lines 13-55) becomes `fetch_data_from_api`
  below, driven by a list of simulated per-iteration outcomes
  (`FetchResponse`): either a decoded page of rows or a raised Python
  exception.  The CSV sink is a list of `SinkLine`s; the two `except`
  clauses are the handler `handleExc`.
* `preprocess_data` (lines 58-82) becomes `preprocess_data` over `Row`s.
* The three aggregations of `main` (lines 109-155) become
  `vote_by_mail_stats`, `median_latency` and `top_congressional_district`
  over `CleanedRow`s.
-/

/-- Python exceptions that can be raised inside the `try` block of the fetch
loop: `requests.exceptions.RequestException` (from `requests.get` /
`raise_for_status`), a pandas decode error (from `pd.read_csv`), or an OS
error (from `chunk.to_csv`).  All of these derive from Python's `Exception`. -/
inductive PyExc
  | requestException (msg : String)
  | parserError (msg : String)
  | osError (msg : String)
deriving DecidableEq

/-- The message text of an exception. -/
def PyExc.msg : PyExc → String
  | .requestException m => m
  | .parserError m => m
  | .osError m => m

/-- One simulated iteration of the paginated API: either the iteration's
request+decode+write succeeds and yields the decoded rows of the page, or
some step of the iteration raises an exception. -/
inductive FetchResponse (α : Type)
  | page (rows : List α)
  | raise (e : PyExc)
deriving DecidableEq

/-- One line of the CSV sink file: the header line, or one data row. -/
inductive SinkLine (α : Type)
  | header
  | data (row : α)
deriving DecidableEq

/-- State left behind by the fetch loop: the contents of the sink file
(`file_name`) and the sequence of `logging.error` entries. -/
structure FetchResult (α : Type) where
  sink : List (SinkLine α)
  errLog : List String
deriving DecidableEq

/-- `isinstance(e, Exception)`: every exception the try-block can raise
derives from `Exception`, so the catch-all clause at line 51 catches it. -/
def isException (_ : PyExc) : Bool := true

/-- The log entry the handlers produce for an exception (lines 48 and 52). -/
def excLogEntry : PyExc → String
  | .requestException m => "Error fetching data: " ++ m
  | e => "Unexpected error: " ++ e.msg

/-- The two `except` clauses of `fetch_data_from_api` (lines 47-53):
`except requests.exceptions.RequestException` first, then
`except Exception`.  Returns the logged message if the exception is caught,
`none` if it would propagate. -/
def handleExc (e : PyExc) : Option String :=
  match e with
  | .requestException m => some ("Error fetching data: " ++ m)
  | e => if isException e then some ("Unexpected error: " ++ e.msg) else none

/-- The `while True` loop of `fetch_data_from_api` (lines 23-53), one
recursive step per iteration.  `colHeaders` is the `column_headers` flag:
the chunk is appended with the header exactly when it is `true`, after
which it is set to `False` (lines 40-42).  An empty chunk breaks the loop
(line 35); a raised exception is dispatched to the handlers, which log it
and break (lines 47-53) — an uncaught exception would propagate as
`Except.error`. -/
def fetchLoop {α : Type} :
    List (FetchResponse α) → Bool → List (SinkLine α) → List String →
    Except PyExc (FetchResult α)
  | [], _, sink, log => .ok ⟨sink, log⟩
  | .page rows :: rest, colHeaders, sink, log =>
      if rows.isEmpty then .ok ⟨sink, log⟩
      else
        fetchLoop rest false
          (sink ++ (if colHeaders then [SinkLine.header] else []) ++ rows.map SinkLine.data) log
  | .raise e :: _, _, sink, log =>
      match handleExc e with
      | some msg => .ok ⟨sink, log ++ [msg]⟩
      | none => .error e

/-- `fetch_data_from_api` (lines 13-55) on a fresh sink: offset starts at 0,
`column_headers = True`, sink file absent (empty), no errors logged. -/
def fetch_data_from_api {α : Type} (responses : List (FetchResponse α)) :
    Except PyExc (FetchResult α) :=
  fetchLoop responses true [] []

/-- Number of header lines in a sink. -/
def headerCount {α : Type} (sink : List (SinkLine α)) : Nat :=
  (sink.filter fun l => match l with | .header => true | .data _ => false).length

/-- The data rows of a sink, in order. -/
def dataRows {α : Type} (sink : List (SinkLine α)) : List α :=
  sink.filterMap fun l => match l with | .header => none | .data r => some r

/-- `pd.read_csv(FILE_NAME)` at main.py line 101.  `chunk.to_csv(...,
mode='a')` creates the file on the first append, so the raw file exists iff
the fetch wrote at least one chunk; reading a missing file raises
`FileNotFoundError`, which `main` does not catch. -/
def read_raw_file {α : Type} (r : FetchResult α) : Except String (List (SinkLine α)) :=
  if r.sink.isEmpty then .error "FileNotFoundError" else .ok r.sink

/-- main.py lines 99-101: run the fetch, then read the raw file back. -/
def main_fetch_then_read {α : Type} (responses : List (FetchResponse α)) :
    Except String (List (SinkLine α)) :=
  match fetch_data_from_api responses with
  | .ok r => read_raw_file r
  | .error e => .error e.msg

theorem handleExc_eq (e : PyExc) : handleExc e = some (excLogEntry e) := by
  cases e <;> rfl

theorem fetchLoop_pages_false {α : Type} (pages : List (List α))
    (hne : ∀ p ∈ pages, p ≠ []) (rest : List (FetchResponse α))
    (sink : List (SinkLine α)) (log : List String) :
    fetchLoop (pages.map FetchResponse.page ++ rest) false sink log
      = fetchLoop rest false (sink ++ pages.flatten.map SinkLine.data) log := by
  induction pages generalizing sink with
  | nil => simp
  | cons p ps ih =>
      have hp : p.isEmpty = false := by
        cases p with
        | nil => exact absurd rfl (hne [] (by simp))
        | cons a l => rfl
      have hps : ∀ q ∈ ps, q ≠ [] := fun q hq => hne q (by simp [hq])
      simp only [List.map_cons, List.cons_append, fetchLoop, hp, Bool.false_eq_true,
        if_false, List.append_eq, List.append_nil]
      rw [ih hps]
      simp [List.append_assoc]

theorem fetchLoop_pages_true {α : Type} (pages : List (List α))
    (hne : ∀ p ∈ pages, p ≠ []) (hpos : pages ≠ []) (rest : List (FetchResponse α))
    (sink : List (SinkLine α)) (log : List String) :
    fetchLoop (pages.map FetchResponse.page ++ rest) true sink log
      = fetchLoop rest false (sink ++ SinkLine.header :: pages.flatten.map SinkLine.data) log := by
  cases pages with
  | nil => exact absurd rfl hpos
  | cons p ps =>
      have hp : p.isEmpty = false := by
        cases p with
        | nil => exact absurd rfl (hne [] (by simp))
        | cons a l => rfl
      have hps : ∀ q ∈ ps, q ≠ [] := fun q hq => hne q (by simp [hq])
      simp only [List.map_cons, List.cons_append, fetchLoop, hp, Bool.false_eq_true,
        if_false, List.append_eq, if_true]
      rw [fetchLoop_pages_false ps hps]
      simp [List.append_assoc]

theorem fetch_data_raise_head {α : Type} (e : PyExc) (rest : List (FetchResponse α)) :
    fetch_data_from_api (FetchResponse.raise e :: rest)
      = Except.ok ⟨[], [excLogEntry e]⟩ := by
  unfold fetch_data_from_api
  simp [fetchLoop, handleExc_eq]

theorem headerCount_data_map {α : Type} (l : List α) :
    headerCount (l.map SinkLine.data) = 0 := by
  induction l with
  | nil => rfl
  | cons a l ih => simp [headerCount, List.filter_cons]

theorem headerCount_cons_header {α : Type} (l : List (SinkLine α)) :
    headerCount (SinkLine.header :: l) = headerCount l + 1 := by
  simp [headerCount, List.filter_cons]

theorem dataRows_data_map {α : Type} (l : List α) :
    dataRows (l.map SinkLine.data) = l := by
  induction l with
  | nil => rfl
  | cons a l ih => simpa [dataRows, List.filterMap_cons] using ih

theorem dataRows_cons_header {α : Type} (l : List (SinkLine α)) :
    dataRows (SinkLine.header :: l) = dataRows l := by
  simp [dataRows, List.filterMap_cons]

/-- Claim C1 (amended): for a paginated response sequence of non-empty pages
followed by an empty page, provided at least one page is non-empty, the sink
ends up holding exactly the concatenation of the rows of the non-empty pages
in order, preceded by exactly one header line (written with the first page
and omitted afterwards), and nothing is logged as an error.  (When every
page is empty the sink stays empty and holds zero header lines, not one —
see the counterexample.) -/
theorem fetch_sink_is_concat_with_one_header {α : Type} (pages : List (List α))
    (rest : List (FetchResponse α)) (hne : ∀ p ∈ pages, p ≠ []) (hpos : pages ≠ []) :
    ∃ r : FetchResult α,
      fetch_data_from_api (pages.map FetchResponse.page ++ FetchResponse.page [] :: rest)
        = Except.ok r ∧
      r.sink = SinkLine.header :: pages.flatten.map SinkLine.data ∧
      headerCount r.sink = 1 ∧ dataRows r.sink = pages.flatten ∧ r.errLog = [] := by
  refine ⟨⟨SinkLine.header :: pages.flatten.map SinkLine.data, []⟩, ?_, rfl, ?_, ?_, rfl⟩
  · unfold fetch_data_from_api
    rw [fetchLoop_pages_true pages hne hpos]
    rfl
  · rw [headerCount_cons_header, headerCount_data_map]
  · rw [dataRows_cons_header, dataRows_data_map]

/-- Claim C1 counterexample: when the very first page is already empty, the
fetch loop breaks before writing anything, so the sink holds zero header
lines — not "exactly one header line total" as the claim states for every
sequence ending in an empty page. -/
theorem fetch_all_empty_pages_no_header :
    (fetch_data_from_api [FetchResponse.page ([] : List Nat)]).map
        (fun r => headerCount r.sink)
      = Except.ok 0 := rfl

/-- Witness for C1: three pages of sizes 1000, 1000, 400 followed by an
empty page leave 2400 data rows and exactly one header line in the sink. -/
theorem fetch_sink_witness :
    ∃ r : FetchResult Nat,
      fetch_data_from_api
          ([List.replicate 1000 0, List.replicate 1000 1, List.replicate 400 2].map
              FetchResponse.page ++ FetchResponse.page [] :: [])
        = Except.ok r ∧
      headerCount r.sink = 1 ∧ (dataRows r.sink).length = 2400 := by
  obtain ⟨r, h1, _, h3, h4, _⟩ :=
    fetch_sink_is_concat_with_one_header
      [List.replicate 1000 0, List.replicate 1000 1, List.replicate 400 2] []
      (by decide) (by decide)
  refine ⟨r, h1, h3, ?_⟩
  rw [h4, List.length_flatten]
  simp only [List.map_cons, List.map_nil, List.length_replicate, List.sum_cons,
    List.sum_nil]
  norm_num

/-- Claim C2: when an iteration raises an exception after some prefix of
non-empty pages was written, the exception is caught and logged as exactly
one error entry, the function returns normally, and the sink retains
exactly the pages written before the error (with the single header line),
with no rollback. -/
theorem fetch_error_partial_result {α : Type} (pages : List (List α))
    (hne : ∀ p ∈ pages, p ≠ []) (e : PyExc) (rest : List (FetchResponse α)) :
    ∃ r : FetchResult α,
      fetch_data_from_api (pages.map FetchResponse.page ++ FetchResponse.raise e :: rest)
        = Except.ok r ∧
      r.sink = (if pages.isEmpty then []
                else SinkLine.header :: pages.flatten.map SinkLine.data) ∧
      r.errLog = [excLogEntry e] := by
  cases pages with
  | nil =>
      refine ⟨⟨[], [excLogEntry e]⟩, ?_, rfl, rfl⟩
      rw [List.map_nil, List.nil_append]
      exact fetch_data_raise_head e rest
  | cons p ps =>
      refine ⟨⟨SinkLine.header :: ((p :: ps).flatten.map SinkLine.data), [excLogEntry e]⟩,
        ?_, by simp, rfl⟩
      unfold fetch_data_from_api
      rw [fetchLoop_pages_true (p :: ps) hne (by simp)]
      simp [fetchLoop, handleExc_eq]

/-- Witness for C2: a transport error on the second page leaves exactly the
first page's rows plus one header line in the sink and one logged error. -/
theorem fetch_error_partial_witness :
    ∃ r : FetchResult Nat,
      fetch_data_from_api ([[10, 20]].map FetchResponse.page ++
          FetchResponse.raise (PyExc.requestException "timeout") :: [])
        = Except.ok r ∧
      r.sink = [SinkLine.header, SinkLine.data 10, SinkLine.data 20] ∧
      r.errLog.length = 1 := by
  obtain ⟨r, h1, h2, h3⟩ :=
    fetch_error_partial_result [[10, 20]] (by decide)
      (PyExc.requestException "timeout") []
  exact ⟨r, h1, by rw [h2]; rfl, by rw [h3]; rfl⟩

theorem fetchLoop_ok {α : Type} (responses : List (FetchResponse α)) (ch : Bool)
    (sink : List (SinkLine α)) (log : List String) :
    ∃ r, fetchLoop responses ch sink log = Except.ok r := by
  induction responses generalizing ch sink with
  | nil => exact ⟨⟨sink, log⟩, rfl⟩
  | cons resp rest ih =>
      cases resp with
      | page rows =>
          cases hrows : rows.isEmpty with
          | true => exact ⟨⟨sink, log⟩, by simp [fetchLoop, hrows]⟩
          | false =>
              obtain ⟨r, hr⟩ :=
                ih false (sink ++ (if ch then [SinkLine.header] else [])
                  ++ rows.map SinkLine.data)
              refine ⟨r, ?_⟩
              simp only [fetchLoop, hrows, Bool.false_eq_true, if_false]
              exact hr
      | raise e =>
          cases e with
          | requestException m => exact ⟨⟨sink, log ++ [excLogEntry (.requestException m)]⟩, rfl⟩
          | parserError m => exact ⟨⟨sink, log ++ [excLogEntry (.parserError m)]⟩, rfl⟩
          | osError m => exact ⟨⟨sink, log ++ [excLogEntry (.osError m)]⟩, rfl⟩

/-- Claim C9: `fetch_data_from_api` never propagates an exception to its
caller — every exception an iteration can raise (request, decode or write)
is matched by one of the two handlers, which log it; the function always
returns normally. -/
theorem fetch_never_raises {α : Type} (responses : List (FetchResponse α)) :
    (∃ r, fetch_data_from_api responses = Except.ok r) ∧
      ∀ e : PyExc, handleExc e = some (excLogEntry e) :=
  ⟨fetchLoop_ok responses true [] [], handleExc_eq⟩

/-- Claim C10: if the first iteration raises or returns an empty page, the
loop stops before any chunk is appended, so the raw file is never created
(empty sink) and `main`'s read-back of the raw file fails with an unhandled
`FileNotFoundError` — the pipeline aborts at the read-back step. -/
theorem first_failure_aborts_read {α : Type} (r₀ : FetchResponse α)
    (rest : List (FetchResponse α))
    (h : r₀ = FetchResponse.page [] ∨ ∃ e, r₀ = FetchResponse.raise e) :
    (∃ res, fetch_data_from_api (r₀ :: rest) = Except.ok res ∧ res.sink = []) ∧
      main_fetch_then_read (r₀ :: rest) = Except.error "FileNotFoundError" := by
  rcases h with h | ⟨e, h⟩
  · subst h
    exact ⟨⟨⟨[], []⟩, rfl, rfl⟩, rfl⟩
  · subst h
    refine ⟨⟨⟨[], [excLogEntry e]⟩, fetch_data_raise_head e rest, rfl⟩, ?_⟩
    unfold main_fetch_then_read
    rw [fetch_data_raise_head e rest]
    rfl

/-- Witness for C10: an empty first page aborts the pipeline at read-back. -/
theorem first_failure_aborts_witness :
    main_fetch_then_read [FetchResponse.page ([] : List Nat)]
      = Except.error "FileNotFoundError" :=
  (first_failure_aborts_read (FetchResponse.page ([] : List Nat)) [] (Or.inl rfl)).2

/-- A calendar date, the value `pd.to_datetime` produces (time-of-day is
always midnight for these date columns, so it is omitted). -/
structure Date where
  year : Nat
  month : Nat
  day : Nat
deriving DecidableEq

/-- Gregorian leap-year test. -/
def isLeap (y : Nat) : Bool :=
  y % 4 = 0 && (y % 100 != 0 || y % 400 = 0)

/-- Number of days in month `m` of year `y`. -/
def daysInMonth (y m : Nat) : Nat :=
  if m = 2 then (if isLeap y then 29 else 28)
  else if m = 4 || m = 6 || m = 9 || m = 11 then 30
  else 31

/-- Numeric value of a decimal digit character. -/
def digitVal (c : Char) : Option Nat :=
  if c.isDigit then some (c.toNat - 48) else none

/-- `pd.to_datetime(value, errors='coerce')` on one cell: parse an ISO-8601
date `YYYY-MM-DD`, optionally followed by a time component introduced by
`'T'` or a space (as in the Socrata export `2020-09-14T00:00:00.000`).
Unparseable values coerce to `none` (`NaT`). -/
def parseDate (s : String) : Option Date :=
  match s.data with
  | y1 :: y2 :: y3 :: y4 :: '-' :: m1 :: m2 :: '-' :: d1 :: d2 :: rest =>
      if rest = [] || rest.head? = some 'T' || rest.head? = some ' ' then
        match digitVal y1, digitVal y2, digitVal y3, digitVal y4,
            digitVal m1, digitVal m2, digitVal d1, digitVal d2 with
        | some a, some b, some c, some d, some e, some f, some g, some h =>
            let yr := 1000 * a + 100 * b + 10 * c + d
            let mo := 10 * e + f
            let dy := 10 * g + h
            if 1 ≤ mo && mo ≤ 12 && 1 ≤ dy && dy ≤ daysInMonth yr mo then
              some ⟨yr, mo, dy⟩
            else none
        | _, _, _, _, _, _, _, _ => none
      else none
  | _ => none

/-- Leap days among the years `1, …, y-1`. -/
def leapsBefore (y : Nat) : Nat :=
  (y - 1) / 4 - (y - 1) / 100 + (y - 1) / 400

/-- Days in the months of year `y` strictly before month `m`. -/
def daysBeforeMonth (y m : Nat) : Nat :=
  ((List.range (m - 1)).map fun i => daysInMonth y (i + 1)).sum

/-- Linear day number of a date (days since 0001-01-01); subtracting two of
these is exactly the `.dt.days` of the pandas timedelta between the dates. -/
def Date.toDays (d : Date) : Nat :=
  365 * (d.year - 1) + leapsBefore d.year + daysBeforeMonth d.year d.month + (d.day - 1)

/-- One record of the raw CSV as read back by `pd.read_csv`: the eleven
columns the program uses, plus the values of the remaining columns of the
source export (`extra`).  A `none` cell is a pandas null (NaN). -/
structure Row where
  countyname : Option String
  party : Option String
  dateofbirth : Option String
  mailapplicationtype : Option String
  appissuedate : Option String
  appreturndate : Option String
  ballotsentdate : Option String
  ballotreturneddate : Option String
  legislative : Option String
  senate : Option String
  congressional : Option String
  extra : List (Option String)
deriving DecidableEq

/-- `app_data.isnull().any(axis=1)` (main.py line 66): does any column of
the record, including the columns outside the selected eleven, hold a
null? -/
def hasNull (r : Row) : Bool :=
  r.countyname.isNone || r.party.isNone || r.dateofbirth.isNone ||
  r.mailapplicationtype.isNone || r.appissuedate.isNone || r.appreturndate.isNone ||
  r.ballotsentdate.isNone || r.ballotreturneddate.isNone || r.legislative.isNone ||
  r.senate.isNone || r.congressional.isNone || r.extra.any Option.isNone

/-- `str.replace(' ', '_')` on one character. -/
def replUnderscore (c : Char) : Char :=
  if c = ' ' then '_' else c

/-- `.str.replace(' ', '_').str.lower()` (main.py line 71): replace every
space with an underscore, then lowercase (ASCII lowering, which covers the
district names in this dataset). -/
def normalizeSenate (s : String) : String :=
  String.mk ((s.data.map replUnderscore).map Char.toLower)

/-- A record of the cleaned table written to
`data/application_in_processed.csv`: the selected, reordered columns of
main.py lines 76-78.  `dateofbirth` has been overwritten by its parsed
form (line 73) and `yr_born` derived from it (line 74). -/
structure CleanedRow where
  countyname : Option String
  party : Option String
  dateofbirth : Option Date
  yr_born : Option Nat
  mailapplicationtype : Option String
  appissuedate : Option String
  appreturndate : Option String
  ballotsentdate : Option String
  ballotreturneddate : Option String
  legislative : Option String
  senate : Option String
  congressional : Option String
deriving DecidableEq

/-- The per-record effect of main.py lines 71-78 on a record that survived
`dropna`: normalize `senate`, parse `dateofbirth`, derive `yr_born`, select
and reorder the columns. -/
def cleanRow (r : Row) : CleanedRow :=
  let dob := r.dateofbirth.bind parseDate
  { countyname := r.countyname
    party := r.party
    dateofbirth := dob
    yr_born := dob.map Date.year
    mailapplicationtype := r.mailapplicationtype
    appissuedate := r.appissuedate
    appreturndate := r.appreturndate
    ballotsentdate := r.ballotsentdate
    ballotreturneddate := r.ballotreturneddate
    legislative := r.legislative
    senate := r.senate.map normalizeSenate
    congressional := r.congressional }

/-- `preprocess_data` (main.py lines 58-82): the cleaned table (records
with no null anywhere, transformed by `cleanRow`) and the invalid table
(records with at least one null, kept unmodified). -/
def preprocess_data (rows : List Row) : List CleanedRow × List Row :=
  ((rows.filter fun r => !hasNull r).map cleanRow,
   rows.filter fun r => hasNull r)

/-- Does a cleaned record hold a null in any of the twelve selected
columns? -/
def cleanedHasNull (c : CleanedRow) : Bool :=
  c.countyname.isNone || c.party.isNone || c.dateofbirth.isNone || c.yr_born.isNone ||
  c.mailapplicationtype.isNone || c.appissuedate.isNone || c.appreturndate.isNone ||
  c.ballotsentdate.isNone || c.ballotreturneddate.isNone || c.legislative.isNone ||
  c.senate.isNone || c.congressional.isNone

theorem toNat_ofNat_valid (n : Nat) (h : n < 0xd800) : (Char.ofNat n).toNat = n := by
  unfold Char.ofNat
  rw [dif_pos (Or.inl h)]
  rfl

theorem toLower_toLower (c : Char) : Char.toLower (Char.toLower c) = Char.toLower c := by
  unfold Char.toLower
  by_cases h : c.toNat ≥ 65 ∧ c.toNat ≤ 90
  · rw [if_pos h]
    have hv : (Char.ofNat (c.toNat + 32)).toNat = c.toNat + 32 :=
      toNat_ofNat_valid _ (by omega)
    rw [if_neg (by omega)]
  · rw [if_neg h, if_neg h]

theorem toLower_ne_space (c : Char) (h : c ≠ ' ') : Char.toLower c ≠ ' ' := by
  unfold Char.toLower
  by_cases hu : c.toNat ≥ 65 ∧ c.toNat ≤ 90
  · rw [if_pos hu]
    intro hcontra
    have hv : (Char.ofNat (c.toNat + 32)).toNat = c.toNat + 32 :=
      toNat_ofNat_valid _ (by omega)
    rw [hcontra] at hv
    have hsp : (' ' : Char).toNat = 32 := rfl
    omega
  · rw [if_neg hu]
    exact h

theorem normChar_idem (c : Char) :
    Char.toLower (replUnderscore (Char.toLower (replUnderscore c)))
      = Char.toLower (replUnderscore c) := by
  have hne : replUnderscore c ≠ ' ' := by
    unfold replUnderscore
    by_cases h : c = ' '
    · rw [if_pos h]; decide
    · rw [if_neg h]; exact h
  rw [show replUnderscore (Char.toLower (replUnderscore c))
        = Char.toLower (replUnderscore c) from
      if_neg (toLower_ne_space _ hne)]
  exact toLower_toLower (replUnderscore c)

/-- Claim C5: the senate-district normalization (replace spaces with
underscores, then lowercase) is idempotent: applying it to an
already-normalized value returns the value unchanged. -/
theorem normalizeSenate_idempotent (s : String) :
    normalizeSenate (normalizeSenate s) = normalizeSenate s := by
  unfold normalizeSenate
  simp only [List.map_map]
  congr 1
  exact List.map_congr_left fun c _ => normChar_idem c

/-- An input record with every column present but an unparseable
date-of-birth string. -/
def unparseableDobRow : Row :=
  { countyname := some "ALLEGHENY"
    party := some "D"
    dateofbirth := some "unknown"
    mailapplicationtype := some "OLMAILV"
    appissuedate := some "2020-08-21"
    appreturndate := some "2020-08-24"
    ballotsentdate := some "2020-09-14"
    ballotreturneddate := some "2020-10-09"
    legislative := some "21ST LEGISLATIVE DISTRICT"
    senate := some "38TH SENATORIAL DISTRICT"
    congressional := some "18TH CONGRESSIONAL DISTRICT"
    extra := [] }

/-- Claim C3 counterexample: a record with no null anywhere whose
`dateofbirth` fails to parse stays in the valid partition, but its cleaned
output holds nulls (`NaT`/`NaN`) in the selected columns `dateofbirth` and
`yr_born` — refuting "every valid output row has zero nulls across the
selected column set". -/
theorem preprocess_valid_output_can_have_null :
    (preprocess_data [unparseableDobRow]).1.map cleanedHasNull = [true] ∧
      (preprocess_data [unparseableDobRow]).2 = [] := by
  constructor <;> rfl

/-- Claim C3 (amended): `preprocess_data` partitions the input by null
presence — the invalid partition and the null-free rows together are a
permutation of the input, every invalid row has at least one null, and the
valid output is exactly the cleaned form of the null-free rows; in a
cleaned valid row every selected column is non-null except `dateofbirth`
and `yr_born`, which are null precisely when the original date-of-birth
string fails to parse. -/
theorem preprocess_partitions (rows : List Row) :
    List.Perm ((preprocess_data rows).2 ++ rows.filter fun r => !hasNull r) rows ∧
    (∀ r ∈ (preprocess_data rows).2, hasNull r = true) ∧
    (preprocess_data rows).1 = (rows.filter fun r => !hasNull r).map cleanRow ∧
    (∀ r : Row, hasNull r = false →
      (cleanRow r).countyname.isSome ∧ (cleanRow r).party.isSome ∧
      (cleanRow r).mailapplicationtype.isSome ∧ (cleanRow r).appissuedate.isSome ∧
      (cleanRow r).appreturndate.isSome ∧ (cleanRow r).ballotsentdate.isSome ∧
      (cleanRow r).ballotreturneddate.isSome ∧ (cleanRow r).legislative.isSome ∧
      (cleanRow r).senate.isSome ∧ (cleanRow r).congressional.isSome ∧
      ∃ s : String, r.dateofbirth = some s ∧
        (cleanRow r).dateofbirth = parseDate s ∧
        (cleanRow r).yr_born = (parseDate s).map Date.year) := by
  refine ⟨List.filter_append_perm _ rows, ?_, rfl, ?_⟩
  · intro r hr
    exact (List.mem_filter.mp hr).2
  · intro r h
    simp only [hasNull, Bool.or_eq_false_iff] at h
    obtain ⟨⟨⟨⟨⟨⟨⟨⟨⟨⟨⟨h1, h2⟩, h3⟩, h4⟩, h5⟩, h6⟩, h7⟩, h8⟩, h9⟩, h10⟩, h11⟩, h12⟩ := h
    obtain ⟨s, hs⟩ : ∃ s, r.dateofbirth = some s := by
      cases hdob : r.dateofbirth with
      | none => rw [hdob] at h3; simp at h3
      | some s => exact ⟨s, rfl⟩
    rw [Option.isNone_eq_false_iff] at h1 h2 h4 h5 h6 h7 h8 h9 h10 h11
    refine ⟨?_, ?_, ?_, ?_, ?_, ?_, ?_, ?_, ?_, ?_, s, hs, ?_, ?_⟩ <;>
      simp [cleanRow, hs, Option.isSome_map', h1, h2, h4, h5, h6, h7, h8, h9, h10, h11]

/-- An input record with a null in one column (`congressional`). -/
def nullCongressionalRow : Row :=
  { countyname := some "ALLEGHENY"
    party := some "R"
    dateofbirth := some "1950-03-04"
    mailapplicationtype := some "MAILIN"
    appissuedate := some "2020-09-01"
    appreturndate := some "2020-09-03"
    ballotsentdate := some "2020-09-14"
    ballotreturneddate := some "2020-10-01"
    legislative := some "30TH LEGISLATIVE DISTRICT"
    senate := some "38TH SENATORIAL DISTRICT"
    congressional := none
    extra := [] }

/-- Witness for C3: on a concrete two-record table the partition permutes
the input, the record with the null column is invalid, and the cleaned
valid record keeps its selected columns non-null except `yr_born`, which is
null because its date-of-birth fails to parse. -/
theorem preprocess_partitions_witness :
    ((preprocess_data [unparseableDobRow, nullCongressionalRow]).2 ++
        ([unparseableDobRow, nullCongressionalRow].filter fun r => !hasNull r)).Perm
      [unparseableDobRow, nullCongressionalRow] ∧
    hasNull nullCongressionalRow = true ∧
    (cleanRow unparseableDobRow).congressional.isSome = true ∧
    (cleanRow unparseableDobRow).yr_born = none := by
  obtain ⟨hperm, hinv, -, hclean⟩ :=
    preprocess_partitions [unparseableDobRow, nullCongressionalRow]
  obtain ⟨-, -, -, -, -, -, -, -, -, hcon, s, hs, -, hyr⟩ :=
    hclean unparseableDobRow rfl
  refine ⟨hperm, hinv nullCongressionalRow (by decide), hcon, ?_⟩
  have hs' : "unknown" = s := Option.some.inj hs
  rw [hyr, ← hs']
  rfl

/-- Claim C4: a null-free row always lands in the valid partition (and
never in the invalid one), even when its date-of-birth does not parse, and
its derived `yr_born` is the calendar year of the parsed date-of-birth, or
null when parsing fails — the partition happens before the derivation. -/
theorem yr_born_is_parsed_year (rows : List Row) (r : Row) (hr : r ∈ rows)
    (hnull : hasNull r = false) :
    cleanRow r ∈ (preprocess_data rows).1 ∧
    r ∉ (preprocess_data rows).2 ∧
    (cleanRow r).yr_born = (r.dateofbirth.bind parseDate).map Date.year := by
  refine ⟨?_, ?_, rfl⟩
  · exact List.mem_map_of_mem _ (List.mem_filter.mpr ⟨hr, by simp [hnull]⟩)
  · intro hmem
    have hmem2 := (List.mem_filter.mp hmem).2
    simp [hnull] at hmem2

/-- Witness for C4: the null-free record with unparseable date-of-birth is
cleaned, not invalidated, and gets a null `yr_born`. -/
theorem yr_born_witness :
    cleanRow unparseableDobRow ∈ (preprocess_data [unparseableDobRow]).1 ∧
    unparseableDobRow ∉ (preprocess_data [unparseableDobRow]).2 ∧
    (cleanRow unparseableDobRow).yr_born = none := by
  obtain ⟨h1, h2, h3⟩ :=
    yr_born_is_parsed_year [unparseableDobRow] unparseableDobRow (by simp) rfl
  exact ⟨h1, h2, by rw [h3]; rfl⟩

/-- Occurrences of a key in a list of keys. -/
def countKey {κ : Type} [DecidableEq κ] (l : List κ) (k : κ) : Nat :=
  (l.filter fun x => x = k).length

/-- `groupby(keys).size()`: one entry per distinct key, with the group
size. -/
def groupCounts {κ : Type} [DecidableEq κ] (l : List κ) : List (κ × Nat) :=
  l.dedup.map fun k => (k, countKey l k)

theorem countKey_pos {κ : Type} [DecidableEq κ] {l : List κ} {k : κ} (h : k ∈ l) :
    0 < countKey l k := by
  have hmem : k ∈ l.filter fun x => x = k := List.mem_filter.mpr ⟨h, by simp⟩
  exact List.length_pos.mpr (List.ne_nil_of_mem hmem)

theorem groupCounts_mem {κ : Type} [DecidableEq κ] {l : List κ} {k : κ} {n : Nat}
    (h : (k, n) ∈ groupCounts l) : n = countKey l k ∧ 0 < n := by
  obtain ⟨k', hk', heq⟩ := List.mem_map.mp h
  obtain ⟨h1, h2⟩ := Prod.mk.injEq .. |>.mp heq
  subst h1
  subst h2
  exact ⟨rfl, countKey_pos (List.mem_dedup.mp hk')⟩

theorem groupCounts_complete {κ : Type} [DecidableEq κ] {l : List κ} {k : κ}
    (h : k ∈ l) : (k, countKey l k) ∈ groupCounts l :=
  List.mem_map_of_mem _ (List.mem_dedup.mpr h)

theorem countKey_filterMap {α κ : Type} [DecidableEq κ] (f : α → Option κ)
    (l : List α) (k : κ) :
    countKey (l.filterMap f) k = (l.filter fun x => f x = some k).length := by
  induction l with
  | nil => rfl
  | cons a l ih =>
      cases hfa : f a with
      | none =>
          rw [List.filter_cons, if_neg (by simp [hfa])]
          rw [List.filterMap_cons_none hfa] at *
          exact ih
      | some b =>
          rw [List.filter_cons, List.filterMap_cons_some hfa]
          by_cases hbk : b = k
          · subst hbk
            rw [if_pos (by simp [hfa])]
            unfold countKey
            rw [List.filter_cons, if_pos (by simp)]
            simpa [countKey] using ih
          · rw [if_neg (by simp [hfa, hbk])]
            unfold countKey
            rw [List.filter_cons, if_neg (by simp [hbk])]
            exact ih

/-- The bin edges of main.py line 114. -/
def ageBins : List Nat := [0, 25, 35, 45, 55, 65, 140]

/-- Lower edge of age bucket `i` (buckets are lower-inclusive,
`right=False`). -/
def binLower (i : Fin 6) : Int := (ageBins.get i.castSucc : Nat)

/-- Upper (exclusive) edge of age bucket `i`. -/
def binUpper (i : Fin 6) : Int := (ageBins.get i.succ : Nat)

/-- `pd.cut(age, bins=[0,25,35,45,55,65,140], right=False)` on one value:
the index of the half-open interval holding the age, `none` when the age
falls outside every bin (pandas NaN). -/
def ageBucket (age : Int) : Option (Fin 6) :=
  if 0 ≤ age ∧ age < 25 then some 0
  else if 25 ≤ age ∧ age < 35 then some 1
  else if 35 ≤ age ∧ age < 45 then some 2
  else if 45 ≤ age ∧ age < 55 then some 3
  else if 55 ≤ age ∧ age < 65 then some 4
  else if 65 ≤ age ∧ age < 140 then some 5
  else none

/-- main.py line 109: drop the 1800 sentinel birth year.  (Pandas keeps a
null `yr_born` here, since `NaN != 1800` holds.) -/
def ageAnalysisRows (rows : List CleanedRow) : List CleanedRow :=
  rows.filter fun c => c.yr_born ≠ some 1800

/-- main.py line 111: age relative to the year 2020 (null when `yr_born`
is null). -/
def ageOf (c : CleanedRow) : Option Int :=
  c.yr_born.map fun y => 2020 - (y : Int)

/-- The groupby key of main.py line 118 for one row: its party and age
bucket; `none` when either is null, in which case groupby drops the row. -/
def agePartyKey (c : CleanedRow) : Option (String × Fin 6) :=
  match c.party, (ageOf c).bind ageBucket with
  | some p, some b => some (p, b)
  | _, _ => none

/-- The order of main.py line 120,
`sort_values(by=['party','count'], ascending=[False,False])`: party
descending, then count descending. -/
def agePartyLE (a b : (String × Fin 6) × Nat) : Bool :=
  if a.1.1 = b.1.1 then decide (b.2 ≤ a.2) else decide (b.1.1 < a.1.1)

/-- The party levels of the groupby at main.py line 118: the distinct
(non-null) party values occurring in the 1800-filtered table. -/
def agePartyParties (rows : List CleanedRow) : List String :=
  ((ageAnalysisRows rows).filterMap fun c => c.party).dedup

/-- The group keys of main.py line 118.  `pd.cut` (line 116) makes
`age_group` a categorical column, so `groupby(['party', 'age_group'])`
with pandas' default `observed=False` produces the full Cartesian product
of the observed party levels with all six bucket labels — including
combinations no row falls into, which get size 0. -/
def agePartyKeys (rows : List CleanedRow) : List (String × Fin 6) :=
  agePartyParties rows ×ˢ List.finRange 6

/-- main.py lines 109-120: `vote_by_mail_stats` — drop the 1800 sentinel,
compute ages, bucket them, group by (party, age_group) with a count (one
record per observed-party × bucket combination, counting zero for
combinations no row falls into), and sort by party then count, both
descending. -/
def vote_by_mail_stats (rows : List CleanedRow) : List ((String × Fin 6) × Nat) :=
  ((agePartyKeys rows).map fun k =>
      (k, countKey ((ageAnalysisRows rows).filterMap agePartyKey) k)).mergeSort agePartyLE

theorem agePartyLE_trans (a b c : (String × Fin 6) × Nat)
    (h1 : agePartyLE a b) (h2 : agePartyLE b c) : agePartyLE a c := by
  unfold agePartyLE at *
  by_cases hab : a.1.1 = b.1.1 <;> by_cases hbc : b.1.1 = c.1.1
  · rw [if_pos hab] at h1
    rw [if_pos hbc] at h2
    rw [if_pos (hab.trans hbc)]
    simp only [decide_eq_true_eq] at *
    omega
  · rw [if_neg hbc] at h2
    simp only [decide_eq_true_eq] at h2
    rw [if_neg (by rw [hab]; exact ne_of_gt h2)]
    simp only [decide_eq_true_eq]
    rw [hab]
    exact h2
  · rw [if_neg hab] at h1
    simp only [decide_eq_true_eq] at h1
    rw [if_neg (by rw [← hbc]; exact ne_of_gt h1)]
    simp only [decide_eq_true_eq]
    rw [← hbc]
    exact h1
  · rw [if_neg hab] at h1
    rw [if_neg hbc] at h2
    simp only [decide_eq_true_eq] at h1 h2
    have hac : c.1.1 < a.1.1 := h2.trans h1
    rw [if_neg (ne_of_gt hac)]
    simp only [decide_eq_true_eq]
    exact hac

theorem agePartyLE_total (a b : (String × Fin 6) × Nat) :
    agePartyLE a b || agePartyLE b a := by
  unfold agePartyLE
  by_cases hab : a.1.1 = b.1.1
  · rw [if_pos hab, if_pos hab.symm]
    simp only [Bool.or_eq_true, decide_eq_true_eq]
    omega
  · rw [if_neg hab, if_neg (Ne.symm hab)]
    simp only [Bool.or_eq_true, decide_eq_true_eq]
    rcases lt_trichotomy a.1.1 b.1.1 with h | h | h
    · exact Or.inr h
    · exact absurd h hab
    · exact Or.inl h

theorem ageBucket_iff (a : Int) (i : Fin 6) :
    ageBucket a = some i ↔ binLower i ≤ a ∧ a < binUpper i := by
  unfold ageBucket binLower binUpper
  fin_cases i <;>
    (simp only [ageBins, List.get, Fin.castSucc, Fin.succ, Fin.castAdd, Fin.castLE];
      split_ifs <;> simp_all <;> omega)

theorem agePartyKey_party {c : CleanedRow} {p : String} {i : Fin 6}
    (hkey : agePartyKey c = some (p, i)) : c.party = some p := by
  unfold agePartyKey at hkey
  cases hcp : c.party with
  | none => rw [hcp] at hkey; simp at hkey
  | some q =>
      cases hb : (ageOf c).bind ageBucket with
      | none => rw [hcp, hb] at hkey; simp at hkey
      | some b =>
          rw [hcp, hb] at hkey
          simp only [Option.some.injEq, Prod.mk.injEq] at hkey
          rw [hkey.1]

/-- Claim C6: the age/party aggregation excludes rows with the sentinel
birth year 1800 entirely, buckets ages (2020 minus birth year) into the
lower-inclusive bins with edges 0,25,35,45,55,65,140, and — because
`age_group` is categorical and groupby defaults to `observed=False` —
emits exactly one record for every pair of an observed party with each of
the six buckets, carrying the size of that group (zero when no row falls
into the combination; positive for every combination some row falls
into), sorted by party descending then count descending. -/
theorem vote_by_mail_stats_spec (rows : List CleanedRow) :
    (∀ c : CleanedRow, c.yr_born = some 1800 →
        vote_by_mail_stats (c :: rows) = vote_by_mail_stats rows) ∧
    (∀ a : Int, ∀ i : Fin 6, ageBucket a = some i ↔ binLower i ≤ a ∧ a < binUpper i) ∧
    (∀ k n, (k, n) ∈ vote_by_mail_stats rows →
        n = ((ageAnalysisRows rows).filter fun c => agePartyKey c = some k).length ∧
        k.1 ∈ agePartyParties rows) ∧
    (∀ p ∈ agePartyParties rows, ∀ i : Fin 6,
        ((p, i),
            ((ageAnalysisRows rows).filter fun c => agePartyKey c = some (p, i)).length)
          ∈ vote_by_mail_stats rows) ∧
    (∀ c ∈ rows, ∀ k, c.yr_born ≠ some 1800 → agePartyKey c = some k →
        k.1 ∈ agePartyParties rows ∧
        ∃ n, (k, n) ∈ vote_by_mail_stats rows ∧ 0 < n) ∧
    ((vote_by_mail_stats rows).map Prod.fst).Nodup ∧
    (vote_by_mail_stats rows).Pairwise fun a b => agePartyLE a b = true := by
  refine ⟨?_, ageBucket_iff, ?_, ?_, ?_, ?_, ?_⟩
  · intro c hc
    unfold vote_by_mail_stats agePartyKeys agePartyParties ageAnalysisRows
    rw [List.filter_cons, if_neg (by simp [hc])]
  · rintro ⟨p, i⟩ n hkn
    have hmem := List.mem_mergeSort.mp hkn
    obtain ⟨k', hk', heq⟩ := List.mem_map.mp hmem
    obtain ⟨h1, h2⟩ := Prod.mk.injEq .. |>.mp heq
    subst h1
    constructor
    · rw [← h2]
      exact countKey_filterMap agePartyKey (ageAnalysisRows rows) (p, i)
    · exact (List.mem_product.mp hk').1
  · intro p hp i
    have hk : (p, i) ∈ agePartyKeys rows :=
      List.mem_product.mpr ⟨hp, List.mem_finRange i⟩
    rw [← countKey_filterMap agePartyKey (ageAnalysisRows rows) (p, i)]
    exact List.mem_mergeSort.mpr (List.mem_map_of_mem _ hk)
  · rintro c hc ⟨p, i⟩ h1800 hkey
    have hca : c ∈ ageAnalysisRows rows :=
      List.mem_filter.mpr ⟨hc, by simp [h1800]⟩
    have hp : p ∈ agePartyParties rows :=
      List.mem_dedup.mpr (List.mem_filterMap.mpr ⟨c, hca, agePartyKey_party hkey⟩)
    have hk : (p, i) ∈ agePartyKeys rows :=
      List.mem_product.mpr ⟨hp, List.mem_finRange i⟩
    have hkmem : (p, i) ∈ (ageAnalysisRows rows).filterMap agePartyKey :=
      List.mem_filterMap.mpr ⟨c, hca, hkey⟩
    exact ⟨hp, countKey ((ageAnalysisRows rows).filterMap agePartyKey) (p, i),
      List.mem_mergeSort.mpr (List.mem_map_of_mem _ hk), countKey_pos hkmem⟩
  · have hperm :
        List.Perm ((vote_by_mail_stats rows).map Prod.fst)
          (((agePartyKeys rows).map fun k =>
              (k, countKey ((ageAnalysisRows rows).filterMap agePartyKey) k)).map Prod.fst) :=
      (List.mergeSort_perm _ _).map Prod.fst
    rw [hperm.nodup_iff, List.map_map]
    rw [show (Prod.fst ∘ fun k : String × Fin 6 =>
        (k, countKey ((ageAnalysisRows rows).filterMap agePartyKey) k)) = id from rfl]
    rw [List.map_id]
    exact (List.nodup_dedup _).product (List.nodup_finRange 6)
  · exact List.sorted_mergeSort agePartyLE_trans agePartyLE_total _

/-- A cleaned record: Democrat born 1950 (age 70 in 2020). -/
def demoRowD70 : CleanedRow :=
  { countyname := some "ALLEGHENY"
    party := some "D"
    dateofbirth := some ⟨1950, 3, 4⟩
    yr_born := some 1950
    mailapplicationtype := some "MAILIN"
    appissuedate := some "2020-01-01"
    appreturndate := some "2020-01-05"
    ballotsentdate := some "2020-01-06"
    ballotreturneddate := some "2020-01-10"
    legislative := some "30TH LEGISLATIVE DISTRICT"
    senate := some "38th_senatorial_district"
    congressional := some "18TH CONGRESSIONAL DISTRICT" }

/-- A cleaned record carrying the sentinel birth year 1800. -/
def sentinelRow1800 : CleanedRow :=
  { demoRowD70 with yr_born := some 1800, dateofbirth := some ⟨1800, 1, 1⟩ }

/-- Witness for C6: the sentinel row is excluded entirely from the
aggregation, age 70 falls in the 65-139 bucket, the Democrat/bucket-5
group shows up with count 1, and the unobserved Democrat/bucket-0
combination still shows up — with count 0. -/
theorem vote_by_mail_stats_witness :
    vote_by_mail_stats (sentinelRow1800 :: [demoRowD70])
        = vote_by_mail_stats [demoRowD70] ∧
    ageBucket 70 = some 5 ∧
    (("D", (5 : Fin 6)), 1) ∈ vote_by_mail_stats [demoRowD70] ∧
    (("D", (0 : Fin 6)), 0) ∈ vote_by_mail_stats [demoRowD70] := by
  obtain ⟨h1, h2, h3, h4, h5, h6, h7⟩ := vote_by_mail_stats_spec [demoRowD70]
  refine ⟨h1 sentinelRow1800 rfl, (h2 70 5).mpr (by constructor <;> decide), ?_, ?_⟩
  · have h := h4 "D" (by decide) 5
    rwa [show ((ageAnalysisRows [demoRowD70]).filter
        fun c => agePartyKey c = some ("D", 5)).length = 1 from by decide] at h
  · have h := h4 "D" (by decide) 0
    rwa [show ((ageAnalysisRows [demoRowD70]).filter
        fun c => agePartyKey c = some ("D", 0)).length = 0 from by decide] at h

/-- main.py lines 129-134: per-row latency in whole days,
`(ballotreturneddate - appissuedate).dt.days`; null (NaN) when either date
is missing or unparseable. -/
def latencyDays (c : CleanedRow) : Option Int :=
  match c.appissuedate.bind parseDate, c.ballotreturneddate.bind parseDate with
  | some iss, some ret => some ((ret.toDays : Int) - (iss.toDays : Int))
  | _, _ => none

/-- `Series.median()` with NaN skipped (the input list holds only the
non-null values): sort, take the middle element for odd length, the mean of
the two middle elements for even length, NaN (`none`) for an empty
series. -/
def median (l : List Int) : Option Rat :=
  let s := l.mergeSort fun a b => decide (a ≤ b)
  if h0 : s.length = 0 then none
  else if s.length % 2 = 1 then
    some ((s.get ⟨s.length / 2, by omega⟩ : Int) : Rat)
  else
    some ((((s.get ⟨s.length / 2 - 1, by omega⟩ : Int) : Rat)
      + ((s.get ⟨s.length / 2, by omega⟩ : Int) : Rat)) / 2)

/-- The legislative districts observed in the table (groupby drops rows
whose key is null). -/
def legislativeKeys (rows : List CleanedRow) : List String :=
  (rows.filterMap fun c => c.legislative).dedup

/-- The non-null latencies of one district's rows (the median skips
NaN). -/
def districtLatencies (rows : List CleanedRow) (d : String) : List Int :=
  (rows.filter fun c => c.legislative = some d).filterMap latencyDays

/-- The order of main.py line 141,
`sort_values(by='median_latency_days', ascending=False)`: median
descending, with NaN medians placed last. -/
def medianGE (a b : String × Option Rat) : Bool :=
  match a.2, b.2 with
  | some x, some y => decide (y ≤ x)
  | some _, none => true
  | none, some _ => false
  | none, none => true

/-- main.py lines 129-143: `median_latency` — group rows by legislative
district, take the median of each group's non-null latencies, sort the
groups by median descending. -/
def median_latency (rows : List CleanedRow) : List (String × Option Rat) :=
  ((legislativeKeys rows).map fun d => (d, median (districtLatencies rows d))).mergeSort
    medianGE

theorem medianGE_trans (a b c : String × Option Rat)
    (h1 : medianGE a b) (h2 : medianGE b c) : medianGE a c := by
  rcases a with ⟨ak, a2⟩
  rcases b with ⟨bk, b2⟩
  rcases c with ⟨ck, c2⟩
  cases a2 with
  | none =>
      cases b2 with
      | none => cases c2 <;> simp_all [medianGE]
      | some y => simp [medianGE] at h1
  | some x =>
      cases b2 with
      | none =>
          cases c2 with
          | none => simp [medianGE]
          | some z => simp [medianGE] at h2
      | some y =>
          cases c2 with
          | none => simp [medianGE]
          | some z =>
              simp only [medianGE, decide_eq_true_eq] at h1 h2 ⊢
              exact h2.trans h1

theorem medianGE_total (a b : String × Option Rat) :
    medianGE a b || medianGE b a := by
  rcases a with ⟨ak, a2⟩
  rcases b with ⟨bk, b2⟩
  cases a2 <;> cases b2 <;> simp [medianGE, le_total]

/-- Claim C7: per-row latency is ballot-returned-day minus
application-issue-day in whole days, null when either date is missing or
unparseable; rows are grouped by legislative district, each group gets the
median of its non-null latencies, and the groups come out sorted by median
descending. -/
theorem median_latency_spec (rows : List CleanedRow) :
    (∀ c : CleanedRow, ∀ iss ret : Date,
        c.appissuedate.bind parseDate = some iss →
        c.ballotreturneddate.bind parseDate = some ret →
        latencyDays c = some ((ret.toDays : Int) - (iss.toDays : Int))) ∧
    (∀ c : CleanedRow,
        c.appissuedate.bind parseDate = none ∨
          c.ballotreturneddate.bind parseDate = none →
        latencyDays c = none) ∧
    (∀ d m, (d, m) ∈ median_latency rows → m = median (districtLatencies rows d)) ∧
    (∀ c ∈ rows, ∀ d, c.legislative = some d →
        (d, median (districtLatencies rows d)) ∈ median_latency rows) ∧
    (median_latency rows).Pairwise fun a b => medianGE a b = true := by
  refine ⟨?_, ?_, ?_, ?_, ?_⟩
  · intro c iss ret h1 h2
    simp [latencyDays, h1, h2]
  · intro c h
    rcases h with h | h
    · simp [latencyDays, h]
    · cases h' : c.appissuedate.bind parseDate <;> simp [latencyDays, h, h']
  · intro d m hdm
    have hmem := List.mem_mergeSort.mp hdm
    obtain ⟨d', _, heq⟩ := List.mem_map.mp hmem
    obtain ⟨h1, h2⟩ := Prod.mk.injEq .. |>.mp heq
    subst h1
    exact h2.symm
  · intro c hc d hd
    have hk : d ∈ legislativeKeys rows :=
      List.mem_dedup.mpr (List.mem_filterMap.mpr ⟨c, hc, hd⟩)
    exact List.mem_mergeSort.mpr (List.mem_map_of_mem _ hk)
  · exact List.sorted_mergeSort medianGE_trans medianGE_total _

/-- Witness for C7: issue date 2020-01-01 and return date 2020-01-10 give
latency 9 whole days, and the row's district appears in the grouped output
with its median. -/
theorem median_latency_witness :
    latencyDays demoRowD70 = some 9 ∧
    ("30TH LEGISLATIVE DISTRICT",
        median (districtLatencies [demoRowD70] "30TH LEGISLATIVE DISTRICT")) ∈
      median_latency [demoRowD70] := by
  obtain ⟨h1, -, -, h4, -⟩ := median_latency_spec [demoRowD70]
  constructor
  · have h := h1 demoRowD70 ⟨2020, 1, 1⟩ ⟨2020, 1, 10⟩ (by decide) (by decide)
    rw [h]
    decide
  · exact h4 demoRowD70 (by simp) _ rfl

/-- The order of main.py line 150,
`sort_values(by='request_count', ascending=False)`: count descending. -/
def countGE {κ : Type} (a b : κ × Nat) : Bool := decide (b.2 ≤ a.2)

/-- main.py lines 149-150: group by congressional district (null keys
dropped by groupby), count rows per group, sort by count descending. -/
def congressional_counts (rows : List CleanedRow) : List (String × Nat) :=
  (groupCounts (rows.filterMap fun c => c.congressional)).mergeSort countGE

/-- main.py line 153: `congressional_counts.head(1)` — the single
highest-count record (rank 1 of the descending-sorted list). -/
def top_congressional_district (rows : List CleanedRow) : List (String × Nat) :=
  (congressional_counts rows).take 1

theorem countGE_trans {κ : Type} (a b c : κ × Nat)
    (h1 : countGE a b) (h2 : countGE b c) : countGE a c := by
  simp only [countGE, decide_eq_true_eq] at h1 h2 ⊢
  omega

theorem countGE_total {κ : Type} (a b : κ × Nat) : countGE a b || countGE b a := by
  simp only [countGE, Bool.or_eq_true, decide_eq_true_eq]
  omega

/-- Claim C8: as soon as some row has a congressional district, the
aggregation selects exactly one record — the head (rank 1) of the
count-descending list — and its count is at least every group's count. -/
theorem top_congressional_spec (rows : List CleanedRow) (c : CleanedRow)
    (hc : c ∈ rows) (d0 : String) (hd0 : c.congressional = some d0) :
    ∃ d n, top_congressional_district rows = [(d, n)] ∧
      (d, n) ∈ congressional_counts rows ∧
      ∀ d' n', (d', n') ∈ congressional_counts rows → n' ≤ n := by
  have hkey : d0 ∈ rows.filterMap fun r => r.congressional :=
    List.mem_filterMap.mpr ⟨c, hc, hd0⟩
  have hmem : (d0, countKey (rows.filterMap fun r => r.congressional) d0)
      ∈ congressional_counts rows :=
    List.mem_mergeSort.mpr (groupCounts_complete hkey)
  have hsorted : (congressional_counts rows).Pairwise fun a b => countGE a b = true :=
    List.sorted_mergeSort countGE_trans countGE_total _
  cases hcc : congressional_counts rows with
  | nil => rw [hcc] at hmem; exact absurd hmem (List.not_mem_nil _)
  | cons top tl =>
      refine ⟨top.1, top.2, ?_, ?_, ?_⟩
      · unfold top_congressional_district
        rw [hcc]
        rfl
      · exact List.mem_cons_self _ _
      · intro d' n' hmem'
        rw [hcc] at hsorted
        rcases List.mem_cons.mp hmem' with heq | htl
        · exact le_of_eq (by rw [← heq])
        · exact decide_eq_true_eq.mp ((List.pairwise_cons.mp hsorted).1 _ htl)

/-- Witness for C8: a one-row table yields exactly one top record, which
dominates every group count. -/
theorem top_congressional_witness :
    ∃ d n, top_congressional_district [demoRowD70] = [(d, n)] ∧
      (d, n) ∈ congressional_counts [demoRowD70] ∧
      ∀ d' n', (d', n') ∈ congressional_counts [demoRowD70] → n' ≤ n :=
  top_congressional_spec [demoRowD70] demoRowD70 (by simp)
    "18TH CONGRESSIONAL DISTRICT" rfl
